import Mathlib

/-!
Verification of the tech0notta realtime-transcription core against its
specification.  The development shallowly embeds three Python modules:

* `app/services/live_transcription_service.py`  (the Live Session Bus),
* `app/services/bot_service.py`                 (the Bot Session Orchestrator),
* `app/services/rtms_client.py`                 (the Streaming Ingest Client),

together with the session-init endpoint of `app/routers/live_router.py`.
Python dictionaries are embedded as insertion-ordered association lists
(`alookup` / `aupdate` mirror `d.get(k)` / `d[k] = v`), wall-clock reads
(`datetime.utcnow()`) and generated UUIDs are passed as explicit parameters,
and background tasks are represented by returning the scheduled work as data
instead of executing it.
-/

set_option autoImplicit false

/-! ### Association lists standing in for Python dicts -/

/-- `d.get(k)`: first binding of `k`, if any. -/
def alookup {α : Type} : List (String × α) → String → Option α
  | [], _ => none
  | (k, v) :: rest, key => if k = key then some v else alookup rest key

/-- `d[k] = v`: replace the binding in place if the key is present
(Python dicts keep the original insertion position), else append. -/
def aupdate {α : Type} : List (String × α) → String → α → List (String × α)
  | [], key, v => [(key, v)]
  | (k, w) :: rest, key, v =>
    if k = key then (key, v) :: rest else (k, w) :: aupdate rest key v

theorem alookup_aupdate_self {α : Type} (l : List (String × α)) (k : String) (v : α) :
    alookup (aupdate l k v) k = some v := by
  induction l with
  | nil => simp [aupdate, alookup]
  | cons p rest ih =>
    by_cases h : p.1 = k
    · simp [aupdate, h, alookup]
    · simp [aupdate, h, alookup, ih]

theorem alookup_aupdate_ne {α : Type} (l : List (String × α)) (k k' : String) (v : α)
    (h : k' ≠ k) : alookup (aupdate l k v) k' = alookup l k' := by
  induction l with
  | nil => simp [aupdate, alookup, if_neg (Ne.symm h)]
  | cons p rest ih =>
    by_cases hp : p.1 = k
    · simp [aupdate, hp, alookup, if_neg (Ne.symm h)]
    · simp [aupdate, hp, alookup, ih]

theorem mem_of_alookup {α : Type} {l : List (String × α)} {k : String} {v : α}
    (h : alookup l k = some v) : (k, v) ∈ l := by
  induction l with
  | nil => simp [alookup] at h
  | cons p rest ih =>
    by_cases hp : p.1 = k
    · simp [alookup, hp] at h
      have : p = (k, v) := by
        cases p
        simp_all
      exact this ▸ List.mem_cons_self _ _
    · simp [alookup, hp] at h
      exact List.mem_cons_of_mem _ (ih h)

theorem alookup_of_mem_nodup {α : Type} {l : List (String × α)} {k : String} {v : α}
    (hnd : (l.map Prod.fst).Nodup) (hm : (k, v) ∈ l) : alookup l k = some v := by
  induction l with
  | nil => simp at hm
  | cons p rest ih =>
    simp only [List.map_cons, List.nodup_cons] at hnd
    rcases List.mem_cons.mp hm with h | h
    · subst h
      simp [alookup]
    · have hk : p.1 ≠ k := by
        intro he
        exact hnd.1 (he ▸ (List.mem_map.mpr ⟨(k, v), h, rfl⟩))
      simp [alookup, hk]
      exact ih hnd.2 h

theorem alookup_eq_none_iff {α : Type} (l : List (String × α)) (k : String) :
    alookup l k = none ↔ ∀ p ∈ l, p.1 ≠ k := by
  induction l with
  | nil => simp [alookup]
  | cons p rest ih =>
    by_cases hp : p.1 = k
    · simp [alookup, hp]
    · simp [alookup, hp, ih]

/-! ### Live Session Bus — `live_transcription_service.py` -/

/-- `TranscriptSegment` dataclass (raw record before `__post_init__` runs). -/
structure TranscriptSegment where
  id : String
  speaker : String
  text : String
  time : String
  timestamp : Nat
  speaker_id : String
  initials : String
  color_class : String
deriving DecidableEq, Repr

/-- Dataclass construction including `__post_init__`: empty initials are
derived from the first two characters of the speaker name. -/
def mkSegment (id speaker text time : String) (timestamp : Nat)
    (speaker_id initials color_class : String) : TranscriptSegment :=
  let initials' := if initials = "" ∧ speaker ≠ "" then speaker.take 2 else initials
  ⟨id, speaker, text, time, timestamp, speaker_id, initials', color_class⟩

/-- `LiveSession` dataclass. -/
structure LiveSession where
  session_id : String
  meeting_id : String
  meeting_topic : String
  started_at : Nat
  segments : List TranscriptSegment
  participant_count : Nat
  speaker_mapping : List (String × String)
deriving DecidableEq, Repr

/-- The module-level color palette `SPEAKER_COLORS`. -/
def SPEAKER_COLORS : List String :=
  [ "bg-blue-100 text-blue-700"
  , "bg-emerald-100 text-emerald-700"
  , "bg-purple-100 text-purple-700"
  , "bg-amber-100 text-amber-700"
  , "bg-rose-100 text-rose-700"
  , "bg-cyan-100 text-cyan-700" ]

/-- The two registries owned by `LiveTranscriptionService`. -/
structure LiveTranscriptionService where
  sessions : List (String × LiveSession)
  speaker_colors : List (String × List (String × String))
deriving DecidableEq, Repr

/-- `create_session`: unconditionally builds a fresh session record
(resetting an existing entry with the same id).  An empty topic falls back to
`"会議 <meeting_id>"`, like the truthiness test in the source. -/
def create_session (svc : LiveTranscriptionService)
    (session_id meeting_id meeting_topic : String) (now : Nat) :
    LiveSession × LiveTranscriptionService :=
  let session : LiveSession :=
    { session_id := session_id
      meeting_id := meeting_id
      meeting_topic := if meeting_topic = "" then "会議 " ++ meeting_id else meeting_topic
      started_at := now
      segments := []
      participant_count := 0
      speaker_mapping := [] }
  (session,
   { sessions := aupdate svc.sessions session_id session
     speaker_colors := aupdate svc.speaker_colors session_id [] })

/-- `get_session`. -/
def get_session (svc : LiveTranscriptionService) (session_id : String) :
    Option LiveSession :=
  alookup svc.sessions session_id

/-- `_get_speaker_color`: round-robin palette assignment, persisted per
session.  The source first makes sure the per-session dict exists, then
assigns `SPEAKER_COLORS[len(colors) % len(SPEAKER_COLORS)]` to new speakers. -/
def get_speaker_color (svc : LiveTranscriptionService)
    (session_id speaker : String) : String × LiveTranscriptionService :=
  let colors := (alookup svc.speaker_colors session_id).getD []
  match alookup colors speaker with
  | some c => (c, { svc with speaker_colors := aupdate svc.speaker_colors session_id colors })
  | none =>
    let c := SPEAKER_COLORS.getD (colors.length % SPEAKER_COLORS.length) ""
    (c, { svc with
            speaker_colors := aupdate svc.speaker_colors session_id (aupdate colors speaker c) })

/-- `add_segment`.  `seg_id` is the generated UUID, `now` the clock reading
and `nowTime` its `"%H:%M"` rendering.  A non-empty speaker id with a truthy
(non-empty) mapped name overrides the display speaker; the time label falls
back to the clock when the caller passes a falsy value. -/
def add_segment (svc : LiveTranscriptionService) (session_id speaker text : String)
    (time_str : Option String) (speaker_id : String)
    (seg_id : String) (now : Nat) (nowTime : String) :
    Option TranscriptSegment × LiveTranscriptionService :=
  match alookup svc.sessions session_id with
  | none => (none, svc)
  | some session =>
    let display_speaker :=
      if speaker_id ≠ "" then
        match alookup session.speaker_mapping speaker_id with
        | some v => if v = "" then speaker else v
        | none => speaker
      else speaker
    let pick := get_speaker_color svc session_id
      (if speaker_id = "" then speaker else speaker_id)
    let time :=
      match time_str with
      | some t => if t = "" then nowTime else t
      | none => nowTime
    let segment := mkSegment seg_id display_speaker text time now speaker_id "" pick.1
    let session' := { session with segments := session.segments ++ [segment] }
    (some segment, { pick.2 with sessions := aupdate pick.2.sessions session_id session' })

/-- The `for i, seg in enumerate(segments): if seg.id == since_id` search:
index of the first segment carrying the cursor id. -/
def findSegIdx (cursor : String) : List TranscriptSegment → Option Nat
  | [] => none
  | seg :: rest =>
    if seg.id = cursor then some 0 else (findSegIdx cursor rest).map (· + 1)

/-- Python `l[-n:]` for a non-negative `n` (`l[-0:]` is the whole list). -/
def takeLastPy {α : Type} (l : List α) (n : Nat) : List α :=
  if n = 0 then l else l.drop (l.length - n)

/-- `get_segments`: optional cursor (falsy values — absent or empty — are
ignored), then the `segments[-limit:]` cap. -/
def get_segments (svc : LiveTranscriptionService) (session_id : String)
    (since_id : Option String) (limit : Nat) : List TranscriptSegment :=
  match alookup svc.sessions session_id with
  | none => []
  | some session =>
    let segments := session.segments
    let segments :=
      match since_id with
      | some cursor =>
        if cursor = "" then segments
        else
          match findSegIdx cursor segments with
          | some i => segments.drop (i + 1)
          | none => segments
      | none => segments
    if segments.length > limit then takeLastPy segments limit else segments

/-- The per-segment rewrite performed by `set_speaker_mapping`: only a
truthy (non-empty) raw speaker id present in the new map is re-resolved;
initials are recomputed from the new display name. -/
def rewriteSeg (mapping : List (String × String)) (segment : TranscriptSegment) :
    TranscriptSegment :=
  if segment.speaker_id ≠ "" then
    match alookup mapping segment.speaker_id with
    | some name =>
      { segment with
          speaker := name
          initials := if name = "" then "" else name.take 2 }
    | none => segment
  else segment

/-- `set_speaker_mapping`: replaces the whole map and rewrites the buffered
segments in place; `false` when the session is unknown. -/
def set_speaker_mapping (svc : LiveTranscriptionService) (session_id : String)
    (mapping : List (String × String)) : Bool × LiveTranscriptionService :=
  match alookup svc.sessions session_id with
  | none => (false, svc)
  | some session =>
    let session' := { session with
                        speaker_mapping := mapping
                        segments := session.segments.map (rewriteSeg mapping) }
    (true, { svc with sessions := aupdate svc.sessions session_id session' })

/-! ### Session-init endpoint — `live_router.py` -/

/-- `POST /segments/{session_id}/init`: the Live Session Bus `create`
operation.  An existing session short-circuits with `created = false`;
otherwise the service-level `create_session` runs. -/
def init_session (svc : LiveTranscriptionService)
    (session_id meeting_id meeting_topic : String) (now : Nat) :
    (LiveSession × Bool) × LiveTranscriptionService :=
  match get_session svc session_id with
  | some existing => ((existing, false), svc)
  | none =>
    let r := create_session svc session_id meeting_id
      (if meeting_topic = "" then "会議 " ++ meeting_id else meeting_topic) now
    ((r.1, true), r.2)

/-! ### Claim C1 -/

/-- C1: Live Session Bus creation is idempotent — when a live session with
the given id already exists, the `create` operation (the init endpoint) is a
no-op returning the existing instance with `created = false`; the whole
service state, hence the original `started_at` and the buffered segments,
is unchanged. -/
theorem live_create_idempotent (svc : LiveTranscriptionService)
    (sid mid topic : String) (now : Nat) (s : LiveSession)
    (h : get_session svc sid = some s) :
    init_session svc sid mid topic now = ((s, false), svc) := by
  simp [init_session, h]

def sessC1 : LiveSession :=
  { session_id := "s1", meeting_id := "m1", meeting_topic := "Topic"
    started_at := 41, segments := [], participant_count := 0, speaker_mapping := [] }

def svcC1 : LiveTranscriptionService :=
  { sessions := [("s1", sessC1)], speaker_colors := [("s1", [])] }

/-- Witness for C1 at a concrete state: a second `create` over `"s1"`
returns the stored session with `created = false` and leaves the state as
it was. -/
theorem live_create_idempotent_w :
    init_session svcC1 "s1" "m1" "Topic" 99 = ((sessC1, false), svcC1) :=
  live_create_idempotent svcC1 "s1" "m1" "Topic" 99 sessC1 rfl

/-! ### Claim C2 -/

theorem findSegIdx_append_cons (cursor : String) (pre : List TranscriptSegment)
    (m : TranscriptSegment) (post : List TranscriptSegment)
    (hpre : ∀ seg ∈ pre, seg.id ≠ cursor) (hm : m.id = cursor) :
    findSegIdx cursor (pre ++ m :: post) = some pre.length := by
  induction pre with
  | nil => simp [findSegIdx, hm]
  | cons a rest ih =>
    have ha : a.id ≠ cursor := hpre a (List.mem_cons_self _ _)
    have ih' := ih (fun seg hseg => hpre seg (List.mem_cons_of_mem _ hseg))
    simp [findSegIdx, ha, ih']

theorem findSegIdx_eq_none (cursor : String) (l : List TranscriptSegment)
    (h : ∀ seg ∈ l, seg.id ≠ cursor) : findSegIdx cursor l = none := by
  induction l with
  | nil => rfl
  | cons a rest ih =>
    have ha : a.id ≠ cursor := h a (List.mem_cons_self _ _)
    simp [findSegIdx, ha, ih (fun seg hseg => h seg (List.mem_cons_of_mem _ hseg))]

theorem drop_append_cons {α : Type} (pre : List α) (m : α) (post : List α) :
    (pre ++ m :: post).drop (pre.length + 1) = post := by
  induction pre with
  | nil => simp
  | cons a rest ih => simp [ih]

theorem takeLastPy_of_le {α : Type} (l : List α) (n : Nat) (h : l.length ≤ n) :
    takeLastPy l n = l := by
  unfold takeLastPy
  by_cases hn : n = 0
  · simp [hn]
  · have : l.length - n = 0 := Nat.sub_eq_zero_of_le h
    simp [hn, this]

/-- C2 counterexample: with buffered segments `a, b, c, d`, cursor `a` and
`limit = 2`, the code returns the LAST two segments of the slice after the
cursor (`c, d`), not the first two (`b, c`) that a limit capping "from the
start of that slice forward" would produce. -/
def segC2 (i : String) : TranscriptSegment :=
  { id := i, speaker := "Sp", text := "t", time := "00:00", timestamp := 0
    speaker_id := "", initials := "Sp", color_class := "" }

def sessC2 : LiveSession :=
  { session_id := "s1", meeting_id := "m1", meeting_topic := "T", started_at := 0
    segments := [segC2 "a", segC2 "b", segC2 "c", segC2 "d"]
    participant_count := 0, speaker_mapping := [] }

def svcC2 : LiveTranscriptionService :=
  { sessions := [("s1", sessC2)], speaker_colors := [("s1", [])] }

/-- C2 counterexample: `getSegments("s1", sinceId = id of 1st, limit = 2)`
returns segments 3 and 4, not segments 2 and 3 as the claim's "limit caps
the result length from the start of that slice forward" rule demands. -/
theorem get_segments_limit_tail_cex :
    (get_segments svcC2 "s1" (some "a") 2).map TranscriptSegment.id = ["c", "d"]
    ∧ (["c", "d"] : List String) ≠ ["b", "c"] := by
  refine ⟨by decide, by decide⟩

/-- C2 amended: when the cursor matches a buffered segment, `getSegments`
returns a slice of the segments strictly after the matching one, in append
order, but `limit` keeps the MOST RECENT `limit` segments of that slice
(the last ones), not the first ones; when the cursor matches no buffered
segment it is ignored and the ordinary no-cursor rule (most recent `limit`
segments) applies — so with 10 segments, cursor = id of the 5th and
limit = 100, exactly segments 6 through 10 are returned in order. -/
theorem get_segments_cursor_spec (svc : LiveTranscriptionService)
    (sid cursor : String) (limit : Nat) (session : LiveSession)
    (hs : alookup svc.sessions sid = some session) (hc : cursor ≠ "") :
    (∀ pre m post, session.segments = pre ++ m :: post → m.id = cursor →
       (∀ seg ∈ pre, seg.id ≠ cursor) →
       get_segments svc sid (some cursor) limit = takeLastPy post limit)
    ∧ ((∀ seg ∈ session.segments, seg.id ≠ cursor) →
       get_segments svc sid (some cursor) limit = get_segments svc sid none limit) := by
  constructor
  · intro pre m post hdecomp hm hpre
    have hidx := findSegIdx_append_cons cursor pre m post hpre hm
    simp only [get_segments, hs, hc, if_neg hc, hdecomp, hidx, drop_append_cons]
    by_cases hl : post.length > limit
    · simp [hl]
    · simp [hl, takeLastPy_of_le post limit (Nat.le_of_not_lt hl)]
  · intro hnone
    have hidx := findSegIdx_eq_none cursor session.segments hnone
    simp [get_segments, hs, hc, hidx]

def sessTen : LiveSession :=
  { session_id := "s1", meeting_id := "m1", meeting_topic := "T", started_at := 0
    segments := [segC2 "s01", segC2 "s02", segC2 "s03", segC2 "s04", segC2 "s05",
                 segC2 "s06", segC2 "s07", segC2 "s08", segC2 "s09", segC2 "s10"]
    participant_count := 0, speaker_mapping := [] }

def svcTen : LiveTranscriptionService :=
  { sessions := [("s1", sessTen)], speaker_colors := [("s1", [])] }

/-- Witness for C2 amended: the spec scenario itself — 10 segments, cursor
on the 5th, limit 100 — yields exactly segments 6 through 10 in order. -/
theorem get_segments_cursor_spec_w :
    (get_segments svcTen "s1" (some "s05") 100).map TranscriptSegment.id
      = ["s06", "s07", "s08", "s09", "s10"] := by
  have h := (get_segments_cursor_spec svcTen "s1" "s05" 100 sessTen rfl (by decide)).1
      [segC2 "s01", segC2 "s02", segC2 "s03", segC2 "s04"] (segC2 "s05")
      [segC2 "s06", segC2 "s07", segC2 "s08", segC2 "s09", segC2 "s10"]
      rfl rfl (by decide)
  rw [h]
  decide

/-! ### Claim C9 -/

/-- When the session exists, `set_speaker_mapping` stores the new map and
maps `rewriteSeg` over the buffered segments. -/
theorem set_speaker_mapping_found (svc : LiveTranscriptionService) (sid : String)
    (mapping : List (String × String)) (session : LiveSession)
    (h : alookup svc.sessions sid = some session) :
    set_speaker_mapping svc sid mapping =
      (true,
       { svc with
           sessions := aupdate svc.sessions sid
                         ({ session with
                              speaker_mapping := mapping
                              segments := session.segments.map (rewriteSeg mapping) }) }) := by
  simp [set_speaker_mapping, h]

theorem rewriteSeg_fields (mapping : List (String × String)) (s : TranscriptSegment) :
    (rewriteSeg mapping s).id = s.id ∧ (rewriteSeg mapping s).text = s.text
    ∧ (rewriteSeg mapping s).time = s.time
    ∧ (rewriteSeg mapping s).timestamp = s.timestamp
    ∧ (rewriteSeg mapping s).speaker_id = s.speaker_id := by
  unfold rewriteSeg
  by_cases h : s.speaker_id = "" <;> cases hm : alookup mapping s.speaker_id <;> simp [h, hm]

theorem rewriteSeg_mapped (mapping : List (String × String)) (s : TranscriptSegment)
    (v : String) (h : s.speaker_id ≠ "") (hm : alookup mapping s.speaker_id = some v) :
    (rewriteSeg mapping s).speaker = v
    ∧ (rewriteSeg mapping s).initials = (if v = "" then "" else v.take 2) := by
  simp [rewriteSeg, h, hm]

theorem rewriteSeg_skip (mapping : List (String × String)) (s : TranscriptSegment)
    (h : s.speaker_id = "" ∨ alookup mapping s.speaker_id = none) :
    rewriteSeg mapping s = s := by
  rcases h with h | h
  · simp [rewriteSeg, h]
  · unfold rewriteSeg
    by_cases h2 : s.speaker_id = "" <;> simp [h2, h]

def segE9 : TranscriptSegment :=
  { id := "g1", speaker := "Guest", text := "hi", time := "00:00", timestamp := 0
    speaker_id := "", initials := "Gu", color_class := "" }

def sessE9 : LiveSession :=
  { session_id := "s1", meeting_id := "m1", meeting_topic := "T", started_at := 0
    segments := [segE9], participant_count := 0, speaker_mapping := [] }

def svcE9 : LiveTranscriptionService :=
  { sessions := [("s1", sessE9)], speaker_colors := [("s1", [])] }

/-- C9 counterexample: the buffered segment's raw speaker id (the empty
string) IS a key of the new map, yet `set_speaker_mapping` leaves the
segment's display name untouched — the source guards the rewrite with the
truthiness of `segment.speaker_id`, so an empty raw id is never rewritten. -/
theorem speaker_mapping_empty_id_cex :
    alookup [("", "Alice")] segE9.speaker_id = some "Alice"
    ∧ (set_speaker_mapping svcE9 "s1" [("", "Alice")]).1 = true
    ∧ (alookup (set_speaker_mapping svcE9 "s1" [("", "Alice")]).2.sessions "s1").map
        LiveSession.segments = some [segE9]
    ∧ segE9.speaker ≠ "Alice" := by
  refine ⟨rfl, rfl, by decide, by decide⟩

/-- C9 amended: `setSpeakerMapping` replaces the session's full mapping and
rewrites display name and initials of every already-buffered segment whose
NON-EMPTY raw speaker id is a key of the new map (an empty raw id is never
rewritten, matching the truthiness guard in the source); every segment's
id, position, text, time label, timestamp and raw speaker id are unchanged;
it returns `false`, changing nothing, when the session is unknown. -/
theorem set_speaker_mapping_spec (svc : LiveTranscriptionService) (sid : String)
    (mapping : List (String × String)) :
    (get_session svc sid = none → set_speaker_mapping svc sid mapping = (false, svc))
    ∧ (∀ session, get_session svc sid = some session →
        (set_speaker_mapping svc sid mapping).1 = true
        ∧ ∃ session',
            alookup (set_speaker_mapping svc sid mapping).2.sessions sid = some session'
            ∧ session'.speaker_mapping = mapping
            ∧ session'.segments.length = session.segments.length
            ∧ ∀ i (hi : i < session.segments.length) (hi' : i < session'.segments.length),
                (session'.segments[i].id = session.segments[i].id
                 ∧ session'.segments[i].text = session.segments[i].text
                 ∧ session'.segments[i].time = session.segments[i].time
                 ∧ session'.segments[i].timestamp = session.segments[i].timestamp
                 ∧ session'.segments[i].speaker_id = session.segments[i].speaker_id)
                ∧ (∀ v, session.segments[i].speaker_id ≠ "" →
                     alookup mapping (session.segments[i].speaker_id) = some v →
                     session'.segments[i].speaker = v
                     ∧ session'.segments[i].initials = (if v = "" then "" else v.take 2))
                ∧ ((session.segments[i].speaker_id = ""
                     ∨ alookup mapping (session.segments[i].speaker_id) = none) →
                     session'.segments[i] = session.segments[i])) := by
  constructor
  · intro h
    have h' : alookup svc.sessions sid = none := h
    simp [set_speaker_mapping, h']
  · intro session h
    have h' : alookup svc.sessions sid = some session := h
    rw [set_speaker_mapping_found svc sid mapping session h']
    refine ⟨rfl, ({ session with
        speaker_mapping := mapping
        segments := session.segments.map (rewriteSeg mapping) } : LiveSession),
      alookup_aupdate_self _ _ _, rfl, by simp, ?_⟩
    intro i hi hi'
    simp only [List.getElem_map]
    refine ⟨?_, ?_, ?_⟩
    · exact ⟨(rewriteSeg_fields mapping _).1, (rewriteSeg_fields mapping _).2.1,
        (rewriteSeg_fields mapping _).2.2.1, (rewriteSeg_fields mapping _).2.2.2.1,
        (rewriteSeg_fields mapping _).2.2.2.2⟩
    · intro v hne hv
      exact rewriteSeg_mapped mapping _ v hne hv
    · intro hskip
      exact rewriteSeg_skip mapping _ hskip

def segW9 : TranscriptSegment :=
  { id := "g1", speaker := "Guest-1", text := "Hi", time := "00:00", timestamp := 0
    speaker_id := "spk-1", initials := "Gu", color_class := "" }

def sessW9 : LiveSession :=
  { session_id := "s1", meeting_id := "m1", meeting_topic := "T", started_at := 0
    segments := [segW9], participant_count := 0, speaker_mapping := [] }

def svcW9 : LiveTranscriptionService :=
  { sessions := [("s1", sessW9)], speaker_colors := [("s1", [])] }

/-- Witness for C9 amended at the spec scenario: mapping `spk-1 → Alice`
succeeds on a session holding one `spk-1` segment. -/
theorem set_speaker_mapping_spec_w :
    (set_speaker_mapping svcW9 "s1" [("spk-1", "Alice")]).1 = true :=
  ((set_speaker_mapping_spec svcW9 "s1" [("spk-1", "Alice")]).2 sessW9 rfl).1

/-! ### Streaming Ingest Client — `rtms_client.py` -/

/-- The fields `_handle_transcript` reads from a decoded transcript frame
(after the `data.get(..., default)` fallbacks have been applied). -/
structure TranscriptFrame where
  text : String
  userName : String
  userId : String
  isFinal : Bool
deriving DecidableEq, Repr

/-- Python `str.strip()`: leading and trailing whitespace removed. -/
def pyStrip (s : String) : String :=
  String.mk
    (((s.toList.dropWhile Char.isWhitespace).reverse.dropWhile Char.isWhitespace).reverse)

/-- `_handle_transcript`: non-final or whitespace-only frames are dropped;
otherwise the segment is forwarded to the Live Session Bus with the default
(empty) `speaker_id` — the parsed `userId` is NOT passed along. -/
def handle_transcript (live : LiveTranscriptionService) (session_id : String)
    (frame : TranscriptFrame) (seg_id : String) (now : Nat) (nowTime : String) :
    LiveTranscriptionService :=
  if frame.isFinal = false ∨ pyStrip frame.text = "" then live
  else (add_segment live session_id frame.userName frame.text none "" seg_id now nowTime).2

/-- Outcome of one iteration of the `while` loop in `_run_session`:
the connect attempt fails, or the connection succeeds and its receive loop
later raises a closure / another error / returns normally, or the task is
cancelled. -/
inductive StreamEvent
  | connectFail
  | closedAfterConnect
  | errAfterConnect
  | gracefulEnd
  | cancel
deriving DecidableEq, Repr

/-- Both `except` branches that bump the retry counter. -/
def isFailure : StreamEvent → Bool
  | .connectFail => true
  | .closedAfterConnect => true
  | .errAfterConnect => true
  | _ => false

/-- The hardcoded `max_retries = 3` of `_run_session`. -/
def max_retries : Nat := 3

/-- Observable state of one `_run_session` task: the retry counter, the
session's `is_connected` flag and the backoff sleeps performed (seconds). -/
structure RunState where
  retry_count : Nat
  is_connected : Bool
  sleeps : List Nat
deriving DecidableEq, Repr

/-- The `while retry_count < max_retries` loop, driven by a finite trace of
iteration outcomes.  On a failure the counter is incremented and, while the
new count is still below the maximum, `2 ** retry_count` seconds are slept;
a successful connect only sets `is_connected` (the counter is untouched);
cancellation breaks out of the loop.  The boolean reports whether the loop
exited (rather than the trace running out mid-loop). -/
def run_loop (evs : List StreamEvent) (st : RunState) : RunState × Bool :=
  if st.retry_count ≥ max_retries then (st, true)
  else
    match evs with
    | [] => (st, false)
    | e :: rest =>
      match e with
      | .connectFail =>
        let r := st.retry_count + 1
        run_loop rest { st with
          retry_count := r
          sleeps := st.sleeps ++ (if r < max_retries then [2 ^ r] else []) }
      | .closedAfterConnect =>
        let r := st.retry_count + 1
        run_loop rest { st with
          is_connected := true
          retry_count := r
          sleeps := st.sleeps ++ (if r < max_retries then [2 ^ r] else []) }
      | .errAfterConnect =>
        let r := st.retry_count + 1
        run_loop rest { st with
          is_connected := true
          retry_count := r
          sleeps := st.sleeps ++ (if r < max_retries then [2 ^ r] else []) }
      | .gracefulEnd => run_loop rest { st with is_connected := true }
      | .cancel => (st, true)

/-- `_run_session` from a fresh task: the loop runs and, whenever it exits,
`session.is_connected = False` is set afterwards.  The RTMS session entry in
the manager's registry is not touched by the task at all (no deletion). -/
def run_session (evs : List StreamEvent) : RunState × Bool :=
  match run_loop evs { retry_count := 0, is_connected := false, sleeps := [] } with
  | (st, true) => ({ st with is_connected := false }, true)
  | (st, false) => (st, false)

/-! ### Claim C7 -/

/-- C7 counterexample: a successful connect does NOT reset the retry
counter.  After two connect failures and one successful connect whose
receive loop ends, the counter still reads 2 (the claim requires 0); and
the trace failure–failure–(connect then unexpected closure) already
exhausts the loop — the task exits disconnected after a single failure
following a successful connect, where the claimed per-success reset would
have kept it retrying. -/
theorem stream_retry_no_reset_cex :
    (run_loop [StreamEvent.connectFail, StreamEvent.connectFail, StreamEvent.gracefulEnd]
        { retry_count := 0, is_connected := false, sleeps := [] }).1.retry_count = 2
    ∧ (2 : Nat) ≠ 0
    ∧ run_session [StreamEvent.connectFail, StreamEvent.connectFail,
          StreamEvent.closedAfterConnect]
        = ({ retry_count := 3, is_connected := false, sleeps := [2, 4] }, true) := by
  refine ⟨by decide, by decide, by decide⟩

theorem run_loop_exhausts (evs : List StreamEvent) : ∀ st : RunState,
    StreamEvent.cancel ∉ evs →
    evs.countP isFailure + st.retry_count = max_retries →
    (run_loop evs st).2 = true
    ∧ (run_loop evs st).1.retry_count = max_retries
    ∧ (run_loop evs st).1.sleeps
        = st.sleeps ++ ((List.range max_retries).drop (st.retry_count + 1)).map (2 ^ ·) := by
  induction evs with
  | nil =>
    intro st hc hf
    have hr : st.retry_count = max_retries := by simpa using hf
    have heq : run_loop [] st = (st, true) := by simp [run_loop, hr]
    rw [heq]
    refine ⟨rfl, hr, ?_⟩
    rw [hr]
    simp [max_retries]
  | cons e rest ih =>
    intro st hc hf
    have hc' : StreamEvent.cancel ∉ rest := fun hm => hc (List.mem_cons_of_mem _ hm)
    by_cases hge : max_retries ≤ st.retry_count
    · have h0 : st.retry_count = max_retries := by omega
      have heq : run_loop (e :: rest) st = (st, true) := by simp [run_loop, hge]
      rw [heq]
      refine ⟨rfl, h0, ?_⟩
      rw [h0]
      simp [max_retries]
    · have hr3 : st.retry_count = 0 ∨ st.retry_count = 1 ∨ st.retry_count = 2 := by
        simp [max_retries] at hge
        omega
      have hrange : List.range max_retries = [0, 1, 2] := by decide
      cases e with
      | cancel => exact absurd (List.mem_cons_self _ _) hc
      | gracefulEnd =>
        have hf' : rest.countP isFailure + st.retry_count = max_retries := by
          simp [List.countP_cons, isFailure] at hf
          omega
        have h := ih ({ st with is_connected := true }) hc' hf'
        have heq : run_loop (.gracefulEnd :: rest) st
            = run_loop rest ({ st with is_connected := true }) := by
          simp [run_loop, hge]
        rw [heq]
        exact h
      | connectFail =>
        have hf' : rest.countP isFailure + (st.retry_count + 1) = max_retries := by
          simp [List.countP_cons, isFailure] at hf
          omega
        have h := ih ({ st with
            retry_count := st.retry_count + 1
            sleeps := st.sleeps
              ++ (if st.retry_count + 1 < max_retries then [2 ^ (st.retry_count + 1)] else []) })
          hc' hf'
        have heq : run_loop (.connectFail :: rest) st
            = run_loop rest ({ st with
                retry_count := st.retry_count + 1
                sleeps := st.sleeps
                  ++ (if st.retry_count + 1 < max_retries
                      then [2 ^ (st.retry_count + 1)] else []) }) := by
          simp [run_loop, hge]
        rw [heq]
        refine ⟨h.1, h.2.1, ?_⟩
        rw [h.2.2]
        rcases hr3 with h0 | h0 | h0 <;>
          simp [h0, max_retries, hrange, List.append_assoc] <;> decide
      | closedAfterConnect =>
        have hf' : rest.countP isFailure + (st.retry_count + 1) = max_retries := by
          simp [List.countP_cons, isFailure] at hf
          omega
        have h := ih ({ st with
            is_connected := true
            retry_count := st.retry_count + 1
            sleeps := st.sleeps
              ++ (if st.retry_count + 1 < max_retries then [2 ^ (st.retry_count + 1)] else []) })
          hc' hf'
        have heq : run_loop (.closedAfterConnect :: rest) st
            = run_loop rest ({ st with
                is_connected := true
                retry_count := st.retry_count + 1
                sleeps := st.sleeps
                  ++ (if st.retry_count + 1 < max_retries
                      then [2 ^ (st.retry_count + 1)] else []) }) := by
          simp [run_loop, hge]
        rw [heq]
        refine ⟨h.1, h.2.1, ?_⟩
        rw [h.2.2]
        rcases hr3 with h0 | h0 | h0 <;>
          simp [h0, max_retries, hrange, List.append_assoc] <;> decide
      | errAfterConnect =>
        have hf' : rest.countP isFailure + (st.retry_count + 1) = max_retries := by
          simp [List.countP_cons, isFailure] at hf
          omega
        have h := ih ({ st with
            is_connected := true
            retry_count := st.retry_count + 1
            sleeps := st.sleeps
              ++ (if st.retry_count + 1 < max_retries then [2 ^ (st.retry_count + 1)] else []) })
          hc' hf'
        have heq : run_loop (.errAfterConnect :: rest) st
            = run_loop rest ({ st with
                is_connected := true
                retry_count := st.retry_count + 1
                sleeps := st.sleeps
                  ++ (if st.retry_count + 1 < max_retries
                      then [2 ^ (st.retry_count + 1)] else []) }) := by
          simp [run_loop, hge]
        rw [heq]
        refine ⟨h.1, h.2.1, ?_⟩
        rw [h.2.2]
        rcases hr3 with h0 | h0 | h0 <;>
          simp [h0, max_retries, hrange, List.append_assoc] <;> decide

/-- C7 amended: the retry counter is never reset; it counts failures
cumulatively over the whole task, so any cancel-free trace containing
`max_retries = 3` connect failures or unexpected closures (consecutive or
not) makes the loop exit, leaving the session disconnected (but the stream
session is not deleted by the task — the registry entry is untouched); the
backoff sleeps performed are `2 ** new_count` seconds after each failure
while the new count is still below the maximum, i.e. exactly `[2, 4]`
seconds over the task's lifetime; once exited, the task never retries. -/
theorem stream_retry_exhaustion_spec (evs : List StreamEvent)
    (hc : StreamEvent.cancel ∉ evs) (hf : evs.countP isFailure = max_retries) :
    (run_session evs).2 = true
    ∧ (run_session evs).1.retry_count = max_retries
    ∧ (run_session evs).1.is_connected = false
    ∧ (run_session evs).1.sleeps = [2, 4] := by
  have h := run_loop_exhausts evs { retry_count := 0, is_connected := false, sleeps := [] }
    hc (by simpa using hf)
  rcases hre : run_loop evs { retry_count := 0, is_connected := false, sleeps := [] }
    with ⟨st, ex⟩
  rw [hre] at h
  have hex : ex = true := h.1
  subst hex
  have hsl : st.sleeps = [2, 4] := by
    have := h.2.2
    simpa [max_retries] using this
  have h21 : st.retry_count = max_retries := h.2.1
  refine ⟨?_, ?_, ?_, ?_⟩ <;> simp [run_session, hre, h21, hsl]

/-- Witness for C7 amended: a trace with three failures separated by a
successful connect exhausts the loop with sleeps of 2 then 4 seconds. -/
theorem stream_retry_exhaustion_spec_w :
    (run_session [StreamEvent.connectFail, StreamEvent.closedAfterConnect,
        StreamEvent.gracefulEnd, StreamEvent.connectFail]).2 = true
    ∧ (run_session [StreamEvent.connectFail, StreamEvent.closedAfterConnect,
        StreamEvent.gracefulEnd, StreamEvent.connectFail]).1.retry_count = max_retries
    ∧ (run_session [StreamEvent.connectFail, StreamEvent.closedAfterConnect,
        StreamEvent.gracefulEnd, StreamEvent.connectFail]).1.is_connected = false
    ∧ (run_session [StreamEvent.connectFail, StreamEvent.closedAfterConnect,
        StreamEvent.gracefulEnd, StreamEvent.connectFail]).1.sleeps = [2, 4] :=
  stream_retry_exhaustion_spec _ (by decide) (by decide)

/-! ### Claim C10 -/

/-- C10: the Streaming Ingest Client's transcript handler stores every
forwarded segment with an EMPTY raw speaker id (the frame's user id is
parsed but not passed to `add_segment`), and `set_speaker_mapping` leaves
every segment whose raw speaker id is empty entirely unchanged — so only
segments pushed with a non-empty `speakerId` via the push path can ever be
remapped. -/
theorem stream_segments_unmappable :
    (∀ (live : LiveTranscriptionService) (sid : String) (frame : TranscriptFrame)
       (seg_id : String) (now : Nat) (nowTime : String) (session session' : LiveSession),
       get_session live sid = some session →
       get_session (handle_transcript live sid frame seg_id now nowTime) sid = some session' →
       session'.segments = session.segments
       ∨ ∃ seg, session'.segments = session.segments ++ [seg] ∧ seg.speaker_id = "")
    ∧ (∀ (live : LiveTranscriptionService) (sid : String)
       (mapping : List (String × String)) (session session' : LiveSession),
       get_session live sid = some session →
       alookup (set_speaker_mapping live sid mapping).2.sessions sid = some session' →
       ∀ i (hi : i < session.segments.length) (hi' : i < session'.segments.length),
         session.segments[i].speaker_id = "" →
         session'.segments[i] = session.segments[i]) := by
  constructor
  · intro live sid frame seg_id now nowTime session session' h1 h2
    unfold handle_transcript at h2
    by_cases hcond : (frame.isFinal = false ∨ pyStrip frame.text = "")
    · rw [if_pos hcond] at h2
      rw [h1] at h2
      obtain rfl := Option.some.inj h2
      exact Or.inl rfl
    · rw [if_neg hcond] at h2
      have h1' : alookup live.sessions sid = some session := h1
      unfold get_session at h2
      simp only [add_segment, h1'] at h2
      rw [alookup_aupdate_self] at h2
      obtain rfl := Option.some.inj h2
      exact Or.inr ⟨_, rfl, rfl⟩
  · intro live sid mapping session session' h1 h2
    have h1' : alookup live.sessions sid = some session := h1
    rw [set_speaker_mapping_found live sid mapping session h1'] at h2
    rw [show ((true,
        { live with
            sessions := aupdate live.sessions sid
              ({ session with
                   speaker_mapping := mapping
                   segments := session.segments.map (rewriteSeg mapping) }) }) :
        Bool × LiveTranscriptionService).2.sessions
        = aupdate live.sessions sid
            ({ session with
                 speaker_mapping := mapping
                 segments := session.segments.map (rewriteSeg mapping) }) from rfl] at h2
    rw [alookup_aupdate_self] at h2
    obtain rfl := Option.some.inj h2
    intro i hi hi' hemp
    simp only [List.getElem_map]
    exact rewriteSeg_skip mapping _ (Or.inl hemp)

def frameW10 : TranscriptFrame :=
  { text := "hello", userName := "Alice", userId := "u1", isFinal := true }

def sessW10 : LiveSession :=
  { session_id := "s1", meeting_id := "m1", meeting_topic := "T", started_at := 0
    segments := [], participant_count := 0, speaker_mapping := [] }

def svcW10 : LiveTranscriptionService :=
  { sessions := [("s1", sessW10)], speaker_colors := [("s1", [])] }

def segW10 : TranscriptSegment :=
  { id := "g1", speaker := "Alice", text := "hello", time := "00:00", timestamp := 0
    speaker_id := "", initials := "Al", color_class := "bg-blue-100 text-blue-700" }

/-- Witness for C10: forwarding one final frame through the transcript
handler appends a segment whose raw speaker id is empty. -/
theorem stream_segments_unmappable_w :
    ({ sessW10 with segments := [segW10] } : LiveSession).segments = sessW10.segments
    ∨ ∃ seg, ({ sessW10 with segments := [segW10] } : LiveSession).segments
        = sessW10.segments ++ [seg] ∧ seg.speaker_id = "" :=
  stream_segments_unmappable.1 svcW10 "s1" frameW10 "g1" 0 "00:00" sessW10
    ({ sessW10 with segments := [segW10] }) rfl (by decide)

/-! ### Bot Session Orchestrator — `bot_service.py` -/

def startsWithL : List Char → List Char → Bool
  | [], _ => true
  | _ :: _, [] => false
  | a :: as, b :: bs => a == b && startsWithL as bs

/-- Python `needle in haystack` on strings, over char lists. -/
def hasInfixL (needle : List Char) : List Char → Bool
  | [] => needle.isEmpty
  | x :: rest => startsWithL needle (x :: rest) || hasInfixL needle rest

/-- `re.search(r'/j/(\d+)', url)`: the first position where `/j/` is
followed by at least one digit; the capture is the maximal digit run. -/
def findJoinId : List Char → Option String
  | [] => none
  | '/' :: 'j' :: '/' :: rest =>
    let digits := rest.takeWhile Char.isDigit
    if digits.isEmpty then findJoinId ('j' :: '/' :: rest)
    else some (String.mk digits)
  | _ :: rest => findJoinId rest

def splitOnChar (c : Char) : List Char → List (List Char)
  | [] => [[]]
  | x :: rest =>
    let r := splitOnChar c rest
    if x = c then [] :: r
    else
      match r with
      | [] => [[x]]
      | h :: t => (x :: h) :: t

/-- `urlparse(url).query`: the text after the first question mark, with any
fragment (after a hash) excluded. -/
def queryPart (l : List Char) : List Char :=
  ((l.takeWhile (fun ch => ch != '#')).dropWhile (fun ch => ch != '?')).drop 1

/-- Model of the standard-library query-string parser used via
`parse_qs(query)['pwd'][0]`: pairs split on ampersands, a pair without an
equals sign or with a blank value is discarded (`keep_blank_values` is
false).  Percent-escapes and plus-decoding are not modeled — no input
relevant here contains them. -/
def parse_qs (q : List Char) : List (String × String) :=
  (splitOnChar '&' q).filterMap (fun pair =>
    match pair.dropWhile (fun ch => ch != '=') with
    | [] => none
    | _ :: value =>
      if value.isEmpty then none
      else some (String.mk (pair.takeWhile (fun ch => ch != '=')), String.mk value))

/-- `_parse_meeting_url`: only a string containing `"zoom.us"` is treated
as a URL (id from the `/j/<digits>` path, password from the `pwd` query
parameter); anything else keeps just its digits as the meeting id, with no
password. -/
def parse_meeting_url (url_or_id : String) : String × Option String :=
  let cs := url_or_id.toList
  if hasInfixL ("zoom.us".toList) cs then
    ((findJoinId cs).getD "", alookup (parse_qs (queryPart cs)) "pwd")
  else
    (String.mk (cs.filter Char.isDigit), none)

/-- `_extract_meeting_id`. -/
def extract_meeting_id (s : String) : String :=
  (parse_meeting_url s).1

/-- Python `password or extracted_password` (empty string is falsy). -/
def resolve_password (password extracted : Option String) : Option String :=
  match password with
  | some p => if p = "" then extracted else some p
  | none => extracted

/-- The SDK key pair read from `zoom_config`. -/
structure ZoomConfig where
  sdk_key : String
  sdk_secret : String
deriving DecidableEq, Repr

/-- `sdk_jwt_service.is_configured`: both strings truthy. -/
def is_configured (cfg : ZoomConfig) : Bool :=
  cfg.sdk_key != "" && cfg.sdk_secret != ""

/-- `sdk_jwt_service.generate_jwt`: `None` without the key pair; otherwise
the external `jwt.encode` call is abstracted by whether it succeeds
(`encodeOk`) and an opaque token bound to the digit-cleaned meeting
number. -/
def generate_jwt (cfg : ZoomConfig) (encodeOk : Bool) (meeting_number : String) :
    Option String :=
  if cfg.sdk_key = "" ∨ cfg.sdk_secret = "" then none
  else if encodeOk then
    some ("jwt:" ++ String.mk (meeting_number.toList.filter Char.isDigit))
  else none

/-- `BotStatus` enum. -/
inductive BotStatus
  | pending
  | joining
  | in_meeting
  | recording
  | leaving
  | completed
  | error
deriving DecidableEq, Repr

/-- `BotSession` dataclass. -/
structure BotSession where
  id : String
  meeting_id : String
  meeting_password : Option String
  status : BotStatus
  created_at : Nat
  updated_at : Nat
  container_id : Option String
  error_message : Option String
deriving DecidableEq, Repr

/-- The in-memory session registry of `BotService`. -/
structure BotService where
  sessions : List (String × BotSession)
deriving DecidableEq, Repr

/-- The background launch task scheduled (but not run) by `dispatch_bot`
via `asyncio.create_task(self._run_bot(session, jwt_token))`. -/
structure BgLaunch where
  session_id : String
  jwt : String
deriving DecidableEq, Repr

/-- `dispatch_bot`: parse, password precedence, validation and
configuration errors, synchronous `PENDING` record creation, synchronous
JWT generation (raising on failure AFTER the record exists and marking it
`ERROR`), then scheduling of the background launch.  Raised `ValueError`s
are `Except.error`; `sid` is the generated UUID and `now` the clock. -/
def dispatch_bot (cfg : ZoomConfig) (encodeOk : Bool) (svc : BotService)
    (meeting_id : String) (password : Option String) (sid : String) (now : Nat) :
    Except String (BotSession × BgLaunch) × BotService :=
  let pr := parse_meeting_url meeting_id
  let final_password := resolve_password password pr.2
  if pr.1 = "" then
    (Except.error "有効な会議IDまたはURLを指定してください", svc)
  else if is_configured cfg = false then
    (Except.error "SDK設定が不完全です。ZOOM_SDK_KEY, ZOOM_SDK_SECRETを設定してください。", svc)
  else
    let session : BotSession :=
      { id := sid, meeting_id := pr.1, meeting_password := final_password
        status := .pending, created_at := now, updated_at := now
        container_id := none, error_message := none }
    let svc1 : BotService := { sessions := aupdate svc.sessions sid session }
    match generate_jwt cfg encodeOk pr.1 with
    | none =>
      (Except.error "SDK JWT生成に失敗しました",
       { sessions := aupdate svc1.sessions sid
           ({ session with
                status := .error
                error_message := some "SDK JWT生成に失敗しました"
                updated_at := now }) })
    | some tok => (Except.ok (session, { session_id := sid, jwt := tok }), svc1)

/-- Outcome of the worker-process start attempted by `_run_bot`: the
`docker run` subprocess returns code 0 with a container id, or a nonzero
code with stderr, or some exception is raised inside the `try` block. -/
inductive LaunchOutcome
  | ok (container_id : String)
  | fail (stderr : String)
  | exc (msg : String)
deriving DecidableEq, Repr

/-- `_run_bot`, the background task: transitions the session to `JOINING`,
ensures a live session exists, then records the launch outcome — worker
handle and `IN_MEETING` on success, `ERROR` plus diagnostic on a nonzero
exit or an exception.  Every exception is caught; the function never
raises.  The transient `JOINING` value is not observable afterwards. -/
def run_bot (svc : BotService) (live : LiveTranscriptionService) (sid : String)
    (outcome : LaunchOutcome) (now lnow : Nat) :
    BotService × LiveTranscriptionService :=
  match alookup svc.sessions sid with
  | none => (svc, live)
  | some s =>
    let live' := (create_session live sid s.meeting_id ("会議 " ++ s.meeting_id) lnow).2
    match outcome with
    | .ok cid =>
      ({ sessions := aupdate svc.sessions sid
           ({ s with status := .in_meeting, container_id := some cid, updated_at := now }) },
       live')
    | .fail err =>
      ({ sessions := aupdate svc.sessions sid
           ({ s with
                status := .error
                error_message := some ("コンテナ起動失敗: " ++ err)
                updated_at := now }) },
       live')
    | .exc msg =>
      ({ sessions := aupdate svc.sessions sid
           ({ s with status := .error, error_message := some msg, updated_at := now }) },
       live')

/-- `BotService.get_session`. -/
def get_bot_session (svc : BotService) (session_id : String) : Option BotSession :=
  alookup svc.sessions session_id

/-- `status in (COMPLETED, ERROR)`. -/
def is_terminal (s : BotStatus) : Bool :=
  s == BotStatus.completed || s == BotStatus.error

/-- `get_sessions_by_meeting`: linear scan over the registry values after
cleaning the meeting reference. -/
def get_sessions_by_meeting (svc : BotService) (meeting_id : String) : List BotSession :=
  let clean := extract_meeting_id meeting_id
  (svc.sessions.map Prod.snd).filter (fun s => s.meeting_id == clean)

/-- `get_active_sessions`: every session not `COMPLETED` and not `ERROR`. -/
def get_active_sessions (svc : BotService) : List BotSession :=
  (svc.sessions.map Prod.snd).filter (fun s => !(is_terminal s.status))

/-- `terminate_bot`: `false` when the id is unknown; otherwise the session
goes through `LEAVING`, the container is stopped best-effort, and the final
observable state is `COMPLETED` — with NO check that the session was still
active. -/
def terminate_bot (svc : BotService) (session_id : String) (now : Nat) :
    Bool × BotService :=
  match alookup svc.sessions session_id with
  | none => (false, svc)
  | some session =>
    (true,
     { sessions := aupdate svc.sessions session_id
         ({ session with status := .completed, updated_at := now }) })

/-- One iteration of the loop in `terminate_sessions_by_meeting_id`.  The
source iterates over session objects and reads `session.status` live; with
the registry's unique UUID keys that is the same as re-reading the entry by
id, which is how the step is modeled. -/
def terminate_step (now : Nat) (acc : Nat × BotService) (sid : String) :
    Nat × BotService :=
  match alookup acc.2.sessions sid with
  | none => acc
  | some s =>
    if is_terminal s.status then acc
    else (acc.1 + 1, (terminate_bot acc.2 sid now).2)

/-- `terminate_sessions_by_meeting_id`: snapshot the sessions of the
meeting, terminate each one that is not yet terminal, return the count. -/
def terminate_sessions_by_meeting_id (svc : BotService) (meeting_id : String)
    (now : Nat) : Nat × BotService :=
  let clean := extract_meeting_id meeting_id
  let ids := svc.sessions.filterMap
    (fun p => if p.2.meeting_id = clean then some p.1 else none)
  ids.foldl (terminate_step now) (0, svc)

/-! ### Claim C5 -/

/-- C5 counterexample: `"https://host/j/555?pwd=ab12"` does not contain
`"zoom.us"`, so the parser treats it as a bare identifier and keeps all its
digits: meeting id `"55512"` and NO password — not id `"555"` with password
`"ab12"` as claimed.  `dispatch` accordingly creates the session with
meeting id `"55512"` and no secret. -/
theorem parse_url_host_cex :
    parse_meeting_url "https://host/j/555?pwd=ab12" = ("55512", none)
    ∧ ("55512" : String) ≠ "555"
    ∧ (dispatch_bot { sdk_key := "k", sdk_secret := "s" } true { sessions := [] }
          "https://host/j/555?pwd=ab12" none "sid1" 0).1
        = Except.ok
            ({ id := "sid1", meeting_id := "55512", meeting_password := none
               status := .pending, created_at := 0, updated_at := 0
               container_id := none, error_message := none },
             { session_id := "sid1", jwt := "jwt:55512" }) := by
  refine ⟨by decide, by decide, by rfl⟩

/-- C5 amended: a meeting reference is treated as a URL only when it
contains `"zoom.us"`; for such a URL the identifier comes from the
`/j/<digits>` path and the optional secret from the `pwd` query parameter
(`dispatch("https://zoom.us/j/555?pwd=ab12")` with no explicit password
parses id `"555"` and password `"ab12"`); any other string keeps just its
digits as the identifier with no password (so the claimed host-agnostic
URL yields `"55512"` and no password); a non-empty explicit password
argument always takes precedence over an extracted one. -/
theorem parse_meeting_url_spec :
    parse_meeting_url "https://zoom.us/j/555?pwd=ab12" = ("555", some "ab12")
    ∧ parse_meeting_url "https://host/j/555?pwd=ab12" = ("55512", none)
    ∧ parse_meeting_url "555" = ("555", none)
    ∧ (∀ (p : String) (ext : Option String), p ≠ "" →
        resolve_password (some p) ext = some p) := by
  refine ⟨by decide, by decide, by decide, ?_⟩
  intro p ext hp
  simp [resolve_password, hp]

/-- Witness for C5 amended: a non-empty explicit password wins over the
URL-extracted one. -/
theorem parse_meeting_url_spec_w :
    resolve_password (some "zz") (some "ab12") = some "zz" :=
  parse_meeting_url_spec.2.2.2 "zz" (some "ab12") (by decide)

/-! ### Claim C4 -/

/-- C4: a dispatch call whose meeting reference parses to a non-empty id,
with the credential issuer configured and functioning, synchronously
returns a `PENDING` session; the session is immediately retrievable via
`get_session` by its id, and the only state change is storing that pending
record — the worker launch is handed back as an unexecuted background task
(`BgLaunch`), so the caller is never blocked on (or affected by) the worker
process starting. -/
theorem dispatch_pending_spec (cfg : ZoomConfig) (svc : BotService)
    (meeting_id : String) (password : Option String) (sid : String) (now : Nat)
    (hparse : (parse_meeting_url meeting_id).1 ≠ "")
    (hconf : is_configured cfg = true) :
    ∃ session bg,
      dispatch_bot cfg true svc meeting_id password sid now
        = (Except.ok (session, bg), { sessions := aupdate svc.sessions sid session })
      ∧ session.status = .pending
      ∧ session.id = sid
      ∧ get_bot_session (dispatch_bot cfg true svc meeting_id password sid now).2 sid
          = some session := by
  have hkey : ¬(cfg.sdk_key = "" ∨ cfg.sdk_secret = "") := by
    simp only [is_configured, Bool.and_eq_true, bne_iff_ne] at hconf
    simp [hconf.1, hconf.2]
  have hred : dispatch_bot cfg true svc meeting_id password sid now
      = (Except.ok
          ({ id := sid, meeting_id := (parse_meeting_url meeting_id).1
             meeting_password := resolve_password password (parse_meeting_url meeting_id).2
             status := .pending, created_at := now, updated_at := now
             container_id := none, error_message := none },
           { session_id := sid
             jwt := "jwt:" ++ String.mk
               ((parse_meeting_url meeting_id).1.toList.filter Char.isDigit) }),
         { sessions := aupdate svc.sessions sid
             ({ id := sid, meeting_id := (parse_meeting_url meeting_id).1
                meeting_password := resolve_password password (parse_meeting_url meeting_id).2
                status := .pending, created_at := now, updated_at := now
                container_id := none, error_message := none }) }) := by
    simp [dispatch_bot, hparse, hconf, generate_jwt, hkey]
  refine ⟨_, _, hred, rfl, rfl, ?_⟩
  rw [hred]
  simp [get_bot_session, alookup_aupdate_self]

/-- Witness for C4: dispatching `"123"` with a configured issuer. -/
theorem dispatch_pending_spec_w :
    ∃ session bg,
      dispatch_bot { sdk_key := "k", sdk_secret := "s" } true { sessions := [] }
          "123" none "sid1" 7
        = (Except.ok (session, bg),
           { sessions := aupdate ([] : List (String × BotSession)) "sid1" session })
      ∧ session.status = .pending
      ∧ session.id = "sid1"
      ∧ get_bot_session (dispatch_bot { sdk_key := "k", sdk_secret := "s" } true
            { sessions := [] } "123" none "sid1" 7).2 "sid1" = some session :=
  dispatch_pending_spec { sdk_key := "k", sdk_secret := "s" } { sessions := [] }
    "123" none "sid1" 7 (by decide) (by decide)

/-! ### Claim C6 -/

/-- C6 counterexample: a credential-issuance failure happens strictly after
the session record is created, and it DOES propagate to the dispatch caller
as a raised `ValueError` (`Except.error`) — even though the session also
remains queryable in state `ERROR`.  This refutes "the failure never
propagates as an exception to the original dispatch caller". -/
theorem dispatch_issuance_raises_cex :
    (dispatch_bot { sdk_key := "k", sdk_secret := "s" } false { sessions := [] }
        "123" none "sid1" 0).1
      = Except.error "SDK JWT生成に失敗しました"
    ∧ (get_bot_session (dispatch_bot { sdk_key := "k", sdk_secret := "s" } false
          { sessions := [] } "123" none "sid1" 0).2 "sid1").map BotSession.status
      = some BotStatus.error := by
  refine ⟨by rfl, by decide⟩

/-- C6 amended: a worker-launch failure in the background task never
propagates to the dispatch caller (`_run_bot` catches every exception) and
leaves the session queryable in state `ERROR` with a diagnostic message;
a credential-issuance failure, by contrast, happens synchronously inside
`dispatch` after the record is created: it raises `ValueError` to the
caller, but the session still remains queryable via `getSession` in state
`ERROR` with the diagnostic — in both cases a failed dispatch never
silently vanishes the session. -/
theorem dispatch_failure_spec :
    (∀ (svc : BotService) (live : LiveTranscriptionService) (sid : String)
       (s : BotSession) (out : LaunchOutcome) (now lnow : Nat),
       alookup svc.sessions sid = some s →
       (∀ cid, out ≠ LaunchOutcome.ok cid) →
       ∃ s', get_bot_session (run_bot svc live sid out now lnow).1 sid = some s'
         ∧ s'.status = .error ∧ s'.error_message ≠ none)
    ∧ (∀ (cfg : ZoomConfig) (svc : BotService) (meeting_id : String)
       (password : Option String) (sid : String) (now : Nat),
       (parse_meeting_url meeting_id).1 ≠ "" → is_configured cfg = true →
       ∃ msg s',
         (dispatch_bot cfg false svc meeting_id password sid now).1 = Except.error msg
         ∧ get_bot_session (dispatch_bot cfg false svc meeting_id password sid now).2 sid
             = some s'
         ∧ s'.status = .error ∧ s'.error_message = some msg) := by
  constructor
  · intro svc live sid s out now lnow hs hok
    cases out with
    | ok cid => exact absurd rfl (hok cid)
    | fail err =>
      refine ⟨{ s with
          status := .error
          error_message := some ("コンテナ起動失敗: " ++ err)
          updated_at := now }, ?_, rfl, by simp⟩
      simp [run_bot, hs, get_bot_session, alookup_aupdate_self]
    | exc msg =>
      refine ⟨{ s with status := .error, error_message := some msg, updated_at := now },
        ?_, rfl, by simp⟩
      simp [run_bot, hs, get_bot_session, alookup_aupdate_self]
  · intro cfg svc meeting_id password sid now hparse hconf
    have hkey : ¬(cfg.sdk_key = "" ∨ cfg.sdk_secret = "") := by
      simp only [is_configured, Bool.and_eq_true, bne_iff_ne] at hconf
      simp [hconf.1, hconf.2]
    refine ⟨"SDK JWT生成に失敗しました",
      { id := sid, meeting_id := (parse_meeting_url meeting_id).1
        meeting_password := resolve_password password (parse_meeting_url meeting_id).2
        status := .error, created_at := now, updated_at := now
        container_id := none
        error_message := some "SDK JWT生成に失敗しました" }, ?_, ?_, rfl, rfl⟩
    · simp [dispatch_bot, hparse, hconf, generate_jwt, hkey]
    · simp [dispatch_bot, hparse, hconf, generate_jwt, hkey, get_bot_session,
        alookup_aupdate_self]

def bsW6 : BotSession :=
  { id := "b1", meeting_id := "123", meeting_password := none, status := .joining
    created_at := 0, updated_at := 0, container_id := none, error_message := none }

def botSvcW6 : BotService := { sessions := [("b1", bsW6)] }

def liveW6 : LiveTranscriptionService := { sessions := [], speaker_colors := [] }

/-- Witness for C6 amended at concrete inputs: a failed `docker run` leaves
the dispatched session in `ERROR` with a diagnostic, and a failing JWT
encoding raises while leaving an `ERROR` session behind. -/
theorem dispatch_failure_spec_w :
    (∃ s', get_bot_session
          (run_bot botSvcW6 liveW6 "b1" (LaunchOutcome.fail "boom") 1 1).1 "b1" = some s'
        ∧ s'.status = .error ∧ s'.error_message ≠ none)
    ∧ (∃ msg s',
        (dispatch_bot { sdk_key := "k", sdk_secret := "s" } false { sessions := [] }
            "123" none "sid1" 0).1 = Except.error msg
        ∧ get_bot_session (dispatch_bot { sdk_key := "k", sdk_secret := "s" } false
              { sessions := [] } "123" none "sid1" 0).2 "sid1" = some s'
        ∧ s'.status = .error ∧ s'.error_message = some msg) :=
  ⟨dispatch_failure_spec.1 botSvcW6 liveW6 "b1" bsW6 (LaunchOutcome.fail "boom") 1 1
      rfl (fun cid h => LaunchOutcome.noConfusion h),
   dispatch_failure_spec.2 { sdk_key := "k", sdk_secret := "s" } { sessions := [] }
      "123" none "sid1" 0 (by decide) (by decide)⟩

/-! ### Support lemmas for termination by meeting -/

/-- The net effect of `terminate_bot` on a session record. -/
def completeAt (now : Nat) (s : BotSession) : BotSession :=
  { s with status := .completed, updated_at := now }

/-- Pointwise effect of `terminate_sessions_by_meeting_id` on one registry
entry, given the snapshot `ids` of the meeting's session ids. -/
def terminateMark (now : Nat) (ids : List String) (p : String × BotSession) :
    String × BotSession :=
  if p.1 ∈ ids ∧ is_terminal p.2.status = false then (p.1, completeAt now p.2) else p

/-- Does the registry hold a non-terminal session under this key? -/
def nonterminal_at (svc : BotService) (k : String) : Bool :=
  match alookup svc.sessions k with
  | some s => !(is_terminal s.status)
  | none => false

theorem map_replace_of_not_mem {α : Type} (l : List (String × α)) (k : String) (v : α)
    (h : ∀ p ∈ l, p.1 ≠ k) :
    l.map (fun p => if p.1 = k then (k, v) else p) = l := by
  induction l with
  | nil => rfl
  | cons p rest ih =>
    have hp := h p (List.mem_cons_self _ _)
    simp [hp, ih (fun q hq => h q (List.mem_cons_of_mem _ hq))]

theorem aupdate_eq_map {α : Type} (l : List (String × α)) (k : String) (v s : α)
    (hnd : (l.map Prod.fst).Nodup) (hl : alookup l k = some s) :
    aupdate l k v = l.map (fun p => if p.1 = k then (k, v) else p) := by
  induction l with
  | nil => simp [alookup] at hl
  | cons p rest ih =>
    simp only [List.map_cons, List.nodup_cons] at hnd
    by_cases hp : p.1 = k
    · have hrest : ∀ q ∈ rest, q.1 ≠ k := by
        intro q hq he
        exact hnd.1 (List.mem_map.mpr ⟨q, hq, he.trans hp.symm⟩)
      simp [aupdate, hp, map_replace_of_not_mem rest k v hrest]
    · have hl' : alookup rest k = some s := by simpa [alookup, hp] using hl
      simp [aupdate, hp, ih hnd.2 hl']

theorem map_fst_terminateMark (now : Nat) (ids : List String)
    (l : List (String × BotSession)) :
    (l.map (terminateMark now ids)).map Prod.fst = l.map Prod.fst := by
  induction l with
  | nil => rfl
  | cons p rest ih =>
    by_cases h : (p.1 ∈ ids ∧ is_terminal p.2.status = false) <;>
      simp [terminateMark, h, ih]

theorem alookup_of_pair_mem_nodup {α : Type} {l : List (String × α)}
    {p : String × α} (hnd : (l.map Prod.fst).Nodup) (hm : p ∈ l) :
    alookup l p.1 = some p.2 := by
  have : (p.1, p.2) ∈ l := by simpa using hm
  exact alookup_of_mem_nodup hnd this

/-- Processing the id snapshot rewrites the registry pointwise: every entry
of the meeting that was not yet terminal becomes `COMPLETED`, everything
else is untouched. -/
theorem terminate_fold_sessions (now : Nat) (ids : List String) :
    ∀ (n : Nat) (svc : BotService), (svc.sessions.map Prod.fst).Nodup →
    (ids.foldl (terminate_step now) (n, svc)).2.sessions
      = svc.sessions.map (terminateMark now ids) := by
  induction ids with
  | nil =>
    intro n svc hnd
    have hmap : svc.sessions.map (terminateMark now []) = svc.sessions := by
      calc svc.sessions.map (terminateMark now [])
          = svc.sessions.map id :=
            List.map_congr_left (by intro p hp; simp [terminateMark])
        _ = svc.sessions := List.map_id _
    rw [List.foldl_nil, hmap]
  | cons i rest ih =>
    intro n svc hnd
    rw [List.foldl_cons]
    cases hli : alookup svc.sessions i with
    | none =>
      have hstep : terminate_step now (n, svc) i = (n, svc) := by
        simp [terminate_step, hli]
      rw [hstep, ih n svc hnd]
      apply List.map_congr_left
      intro p hp
      have hpi : p.1 ≠ i := (alookup_eq_none_iff _ _).mp hli p hp
      simp [terminateMark, List.mem_cons, hpi]
    | some s =>
      by_cases hterm : is_terminal s.status = true
      · have hstep : terminate_step now (n, svc) i = (n, svc) := by
          simp [terminate_step, hli, hterm]
        rw [hstep, ih n svc hnd]
        apply List.map_congr_left
        intro p hp
        by_cases hpi : p.1 = i
        · have hps : p.2 = s := by
            have h1 := alookup_of_pair_mem_nodup hnd hp
            rw [hpi, hli] at h1
            exact (Option.some.inj h1).symm
          simp [terminateMark, List.mem_cons, hps, hterm]
        · simp [terminateMark, List.mem_cons, hpi]
      · have hstep : terminate_step now (n, svc) i
            = (n + 1, { sessions := aupdate svc.sessions i (completeAt now s) }) := by
          simp [terminate_step, hli, hterm, terminate_bot, completeAt]
        rw [hstep]
        have hup : aupdate svc.sessions i (completeAt now s)
            = svc.sessions.map (fun p => if p.1 = i then (i, completeAt now s) else p) :=
          aupdate_eq_map _ _ _ s hnd hli
        have hfst : ((aupdate svc.sessions i (completeAt now s)).map Prod.fst)
            = svc.sessions.map Prod.fst := by
          rw [hup, List.map_map]
          apply List.map_congr_left
          intro p hp
          by_cases hpi : p.1 = i <;> simp [hpi]
        have hnd' : (({ sessions := aupdate svc.sessions i (completeAt now s) } :
            BotService).sessions.map Prod.fst).Nodup := by
          show ((aupdate svc.sessions i (completeAt now s)).map Prod.fst).Nodup
          rw [hfst]
          exact hnd
        rw [ih (n + 1) { sessions := aupdate svc.sessions i (completeAt now s) } hnd']
        show (aupdate svc.sessions i (completeAt now s)).map (terminateMark now rest)
          = svc.sessions.map (terminateMark now (i :: rest))
        rw [hup, List.map_map]
        apply List.map_congr_left
        intro p hp
        by_cases hpi : p.1 = i
        · have hps : p.2 = s := by
            have h1 := alookup_of_pair_mem_nodup hnd hp
            rw [hpi, hli] at h1
            exact (Option.some.inj h1).symm
          have hterm' : is_terminal s.status = false := by
            cases h2 : is_terminal s.status
            · rfl
            · exact absurd h2 hterm
          have hne : ¬s.status = BotStatus.completed ∧ ¬s.status = BotStatus.error := by
            simpa [is_terminal] using hterm'
          simp [terminateMark, Function.comp, hpi, hps, completeAt, is_terminal,
            List.mem_cons, hterm', hne.1, hne.2]
        · simp [terminateMark, Function.comp, hpi, List.mem_cons]

/-- Processing the id snapshot counts exactly the ids that were bound to a
non-terminal session beforehand. -/
theorem terminate_fold_count (now : Nat) (ids : List String) :
    ∀ (n : Nat) (svc : BotService), ids.Nodup →
    (ids.foldl (terminate_step now) (n, svc)).1
      = n + (ids.filter (nonterminal_at svc)).length := by
  induction ids with
  | nil =>
    intro n svc _
    simp
  | cons i rest ih =>
    intro n svc hnd
    simp only [List.nodup_cons] at hnd
    rw [List.foldl_cons]
    cases hli : alookup svc.sessions i with
    | none =>
      have hstep : terminate_step now (n, svc) i = (n, svc) := by
        simp [terminate_step, hli]
      rw [hstep, ih n svc hnd.2]
      simp [List.filter_cons, nonterminal_at, hli]
    | some s =>
      by_cases hterm : is_terminal s.status = true
      · have hstep : terminate_step now (n, svc) i = (n, svc) := by
          simp [terminate_step, hli, hterm]
        rw [hstep, ih n svc hnd.2]
        simp [List.filter_cons, nonterminal_at, hli, hterm]
      · have hstep : terminate_step now (n, svc) i
            = (n + 1, { sessions := aupdate svc.sessions i (completeAt now s) }) := by
          simp [terminate_step, hli, hterm, terminate_bot, completeAt]
        rw [hstep,
          ih (n + 1) { sessions := aupdate svc.sessions i (completeAt now s) } hnd.2]
        have hfil : rest.filter
            (nonterminal_at { sessions := aupdate svc.sessions i (completeAt now s) })
            = rest.filter (nonterminal_at svc) := by
          apply List.filter_congr
          intro k hk
          have hki : k ≠ i := fun he => hnd.1 (he ▸ hk)
          show nonterminal_at _ k = nonterminal_at svc k
          simp only [nonterminal_at]
          rw [alookup_aupdate_ne _ _ _ _ hki]
        rw [hfil]
        have hterm' : is_terminal s.status = false := by
          cases h2 : is_terminal s.status
          · rfl
          · exact absurd h2 hterm
        simp [List.filter_cons, nonterminal_at, hli, hterm']
        omega

theorem ids_sublist (l : List (String × BotSession)) (clean : String) :
    (l.filterMap (fun p => if p.2.meeting_id = clean then some p.1 else none)).Sublist
      (l.map Prod.fst) := by
  induction l with
  | nil => simp
  | cons p rest ih =>
    by_cases hm : p.2.meeting_id = clean
    · have hfm : (p :: rest).filterMap
          (fun q => if q.2.meeting_id = clean then some q.1 else none)
          = p.1 :: rest.filterMap
              (fun q => if q.2.meeting_id = clean then some q.1 else none) := by
        simp [List.filterMap_cons, hm]
      rw [hfm, List.map_cons]
      exact List.Sublist.cons₂ p.1 ih
    · have hfm : (p :: rest).filterMap
          (fun q => if q.2.meeting_id = clean then some q.1 else none)
          = rest.filterMap
              (fun q => if q.2.meeting_id = clean then some q.1 else none) := by
        simp [List.filterMap_cons, hm]
      rw [hfm, List.map_cons]
      exact List.Sublist.cons p.1 ih

theorem ids_mem {l : List (String × BotSession)} {clean k : String} :
    k ∈ l.filterMap (fun p => if p.2.meeting_id = clean then some p.1 else none)
    ↔ ∃ p, p ∈ l ∧ p.2.meeting_id = clean ∧ p.1 = k := by
  rw [List.mem_filterMap]
  constructor
  · rintro ⟨p, hp, he⟩
    by_cases hm : p.2.meeting_id = clean
    · rw [if_pos hm] at he
      exact ⟨p, hp, hm, Option.some.inj he⟩
    · rw [if_neg hm] at he
      simp at he
  · rintro ⟨p, hp, hm, rfl⟩
    exact ⟨p, hp, by rw [if_pos hm]⟩

theorem ids_filter_length (l : List (String × BotSession)) (clean : String)
    (hnd : (l.map Prod.fst).Nodup) :
    ((l.filterMap (fun p => if p.2.meeting_id = clean then some p.1 else none)).filter
        (nonterminal_at { sessions := l })).length
      = ((l.map Prod.snd).filter
          (fun s => !(is_terminal s.status) && (s.meeting_id == clean))).length := by
  induction l with
  | nil => rfl
  | cons p rest ih =>
    simp only [List.map_cons, List.nodup_cons] at hnd
    have hcong : (rest.filterMap
          (fun q => if q.2.meeting_id = clean then some q.1 else none)).filter
          (nonterminal_at { sessions := p :: rest })
        = (rest.filterMap
          (fun q => if q.2.meeting_id = clean then some q.1 else none)).filter
          (nonterminal_at { sessions := rest }) := by
      apply List.filter_congr
      intro k hk
      obtain ⟨q, hq, hqm, hqk⟩ := ids_mem.mp hk
      have hkp : p.1 ≠ k := by
        intro he
        exact hnd.1 (List.mem_map.mpr ⟨q, hq, hqk.trans he.symm⟩)
      simp only [nonterminal_at]
      show (match alookup (p :: rest) k with
        | some s => !(is_terminal s.status)
        | none => false) = _
      rw [show alookup (p :: rest) k = alookup rest k by simp [alookup, hkp]]
    by_cases hm : p.2.meeting_id = clean
    · have hmb : (p.2.meeting_id == clean) = true := by simp [hm]
      have hlook : alookup (p :: rest) p.1 = some p.2 := by simp [alookup]
      have hpred : nonterminal_at { sessions := p :: rest } p.1
          = !(is_terminal p.2.status) := by
        simp only [nonterminal_at]
        show (match alookup (p :: rest) p.1 with
          | some s => !(is_terminal s.status)
          | none => false) = _
        rw [hlook]
      have hfm : (p :: rest).filterMap
          (fun q => if q.2.meeting_id = clean then some q.1 else none)
          = p.1 :: rest.filterMap
              (fun q => if q.2.meeting_id = clean then some q.1 else none) := by
        simp [List.filterMap_cons, hm]
      rw [hfm, List.filter_cons, hpred, List.map_cons, List.filter_cons]
      cases ht : is_terminal p.2.status
      · simp only [ht, Bool.not_false, hmb, Bool.true_and]
        simp [hcong, ih hnd.2]
      · simp only [ht, Bool.not_true, Bool.false_and]
        simp [hcong, ih hnd.2]
    · have hmb : (p.2.meeting_id == clean) = false := by simp [hm]
      have hfm : (p :: rest).filterMap
          (fun q => if q.2.meeting_id = clean then some q.1 else none)
          = rest.filterMap
              (fun q => if q.2.meeting_id = clean then some q.1 else none) := by
        simp [List.filterMap_cons, hm]
      rw [hfm, hcong, ih hnd.2, List.map_cons, List.filter_cons]
      simp [hmb]

theorem terminateMark_snd_meeting (now : Nat) (ids : List String)
    (p : String × BotSession) :
    (terminateMark now ids p).2.meeting_id = p.2.meeting_id := by
  by_cases h : (p.1 ∈ ids ∧ is_terminal p.2.status = false) <;>
    simp [terminateMark, h, completeAt]

theorem terminateMark_terminal_of_mem (now : Nat) (ids : List String)
    (p : String × BotSession) (hm : p.1 ∈ ids) :
    is_terminal (terminateMark now ids p).2.status = true := by
  cases h : is_terminal p.2.status
  · have hne : ¬p.2.status = BotStatus.completed ∧ ¬p.2.status = BotStatus.error := by
      simpa [is_terminal] using h
    simp [terminateMark, hm, h, completeAt, is_terminal, hne.1, hne.2]
  · simp [terminateMark, h]

/-! ### Claim C8 -/

/-- C8: for every meeting reference M (over a registry with its unique
UUID keys), `terminateByMeeting(M)` terminates every non-terminal session
of that meeting and returns their count; immediately afterwards
`getActiveSessions()` contains no session with that meeting reference, and
a second `terminateByMeeting(M)` returns 0. -/
theorem terminate_by_meeting_spec (svc : BotService) (M : String) (t t' : Nat)
    (hnd : (svc.sessions.map Prod.fst).Nodup) :
    (terminate_sessions_by_meeting_id svc M t).1
        = ((get_sessions_by_meeting svc M).filter
            (fun s => !(is_terminal s.status))).length
    ∧ (∀ s ∈ get_active_sessions (terminate_sessions_by_meeting_id svc M t).2,
        s.meeting_id ≠ extract_meeting_id M)
    ∧ (terminate_sessions_by_meeting_id
          (terminate_sessions_by_meeting_id svc M t).2 M t').1 = 0 := by
  have hunfold : terminate_sessions_by_meeting_id svc M t
      = (svc.sessions.filterMap (fun p =>
            if p.2.meeting_id = extract_meeting_id M then some p.1 else none)).foldl
          (terminate_step t) (0, svc) := rfl
  have hidsnd : (svc.sessions.filterMap (fun p =>
      if p.2.meeting_id = extract_meeting_id M then some p.1 else none)).Nodup :=
    List.Nodup.sublist (ids_sublist svc.sessions (extract_meeting_id M)) hnd
  have hsess : (terminate_sessions_by_meeting_id svc M t).2.sessions
      = svc.sessions.map (terminateMark t (svc.sessions.filterMap (fun p =>
          if p.2.meeting_id = extract_meeting_id M then some p.1 else none))) := by
    rw [hunfold]
    exact terminate_fold_sessions t _ 0 svc hnd
  refine ⟨?_, ?_, ?_⟩
  · rw [hunfold, terminate_fold_count t _ 0 svc hidsnd, Nat.zero_add]
    have h2 : ((svc.sessions.filterMap (fun p =>
        if p.2.meeting_id = extract_meeting_id M then some p.1 else none)).filter
          (nonterminal_at svc)).length
        = ((svc.sessions.map Prod.snd).filter
            (fun s => !(is_terminal s.status)
              && (s.meeting_id == extract_meeting_id M))).length :=
      ids_filter_length svc.sessions (extract_meeting_id M) hnd
    rw [h2]
    simp [get_sessions_by_meeting, List.filter_filter]
  · intro s hs heq
    simp only [get_active_sessions, hsess, List.map_map, List.mem_filter,
      List.mem_map, Function.comp_apply] at hs
    obtain ⟨⟨p, hp, hps⟩, hact⟩ := hs
    have hpm : p.2.meeting_id = extract_meeting_id M := by
      rw [← terminateMark_snd_meeting t (svc.sessions.filterMap (fun p =>
          if p.2.meeting_id = extract_meeting_id M then some p.1 else none)) p, hps]
      exact heq
    have hin : p.1 ∈ svc.sessions.filterMap (fun p =>
        if p.2.meeting_id = extract_meeting_id M then some p.1 else none) :=
      ids_mem.mpr ⟨p, hp, hpm, rfl⟩
    have hterm := terminateMark_terminal_of_mem t _ p hin
    rw [hps] at hterm
    simp [hterm] at hact
  · have hfst2 : (terminate_sessions_by_meeting_id svc M t).2.sessions.map Prod.fst
        = svc.sessions.map Prod.fst := by
      rw [hsess]
      exact map_fst_terminateMark t _ svc.sessions
    have hnd2 : ((terminate_sessions_by_meeting_id svc M t).2.sessions.map
        Prod.fst).Nodup := by
      rw [hfst2]
      exact hnd
    have hid2nd : ((terminate_sessions_by_meeting_id svc M t).2.sessions.filterMap
        (fun p => if p.2.meeting_id = extract_meeting_id M then some p.1
          else none)).Nodup :=
      List.Nodup.sublist (ids_sublist _ _) hnd2
    have hunfold2 : terminate_sessions_by_meeting_id
          (terminate_sessions_by_meeting_id svc M t).2 M t'
        = ((terminate_sessions_by_meeting_id svc M t).2.sessions.filterMap (fun p =>
            if p.2.meeting_id = extract_meeting_id M then some p.1 else none)).foldl
            (terminate_step t') (0, (terminate_sessions_by_meeting_id svc M t).2) := rfl
    rw [hunfold2, terminate_fold_count t' _ 0 _ hid2nd, Nat.zero_add]
    rw [List.length_eq_zero, List.filter_eq_nil_iff]
    intro k hk
    obtain ⟨p', hp', hpm', rfl⟩ := ids_mem.mp hk
    have hlk := alookup_of_pair_mem_nodup hnd2 hp'
    simp only [nonterminal_at, hlk]
    rw [hsess] at hp'
    obtain ⟨p, hp, hpe⟩ := List.mem_map.mp hp'
    have hpm : p.2.meeting_id = extract_meeting_id M := by
      rw [← terminateMark_snd_meeting t (svc.sessions.filterMap (fun p =>
          if p.2.meeting_id = extract_meeting_id M then some p.1 else none)) p, hpe]
      exact hpm'
    have hin : p.1 ∈ svc.sessions.filterMap (fun p =>
        if p.2.meeting_id = extract_meeting_id M then some p.1 else none) :=
      ids_mem.mpr ⟨p, hp, hpm, rfl⟩
    have hterm := terminateMark_terminal_of_mem t _ p hin
    rw [hpe] at hterm
    simp [hterm]

def bsA8 : BotSession :=
  { id := "a", meeting_id := "777", meeting_password := none, status := .pending
    created_at := 0, updated_at := 0, container_id := none, error_message := none }

def bsB8 : BotSession :=
  { id := "b", meeting_id := "777", meeting_password := none, status := .error
    created_at := 0, updated_at := 0, container_id := none, error_message := some "x" }

def bsC8 : BotSession :=
  { id := "c", meeting_id := "888", meeting_password := none, status := .in_meeting
    created_at := 0, updated_at := 0, container_id := none, error_message := none }

def botSvcW8 : BotService :=
  { sessions := [("a", bsA8), ("b", bsB8), ("c", bsC8)] }

/-- Witness for C8 at a concrete registry: meeting `"777"` holds one active
and one errored session, meeting `"888"` an unrelated active one. -/
theorem terminate_by_meeting_spec_w :
    (terminate_sessions_by_meeting_id botSvcW8 "777" 1).1
        = ((get_sessions_by_meeting botSvcW8 "777").filter
            (fun s => !(is_terminal s.status))).length
    ∧ (∀ s ∈ get_active_sessions (terminate_sessions_by_meeting_id botSvcW8 "777" 1).2,
        s.meeting_id ≠ extract_meeting_id "777")
    ∧ (terminate_sessions_by_meeting_id
          (terminate_sessions_by_meeting_id botSvcW8 "777" 1).2 "777" 2).1 = 0 :=
  terminate_by_meeting_spec botSvcW8 "777" 1 2 (by decide)

/-! ### Claim C3 -/

def bsErr3 : BotSession :=
  { id := "s1", meeting_id := "777", meeting_password := none, status := .error
    created_at := 0, updated_at := 0, container_id := none
    error_message := some "boom" }

def botSvcE3 : BotService := { sessions := [("s1", bsErr3)] }

/-- C3 counterexample: `terminate` on a session already in the terminal
state `ERROR` changes its state to `COMPLETED` — the Orchestrator performs
no terminal-state check in `terminate_bot`, so `ERROR` is not terminal
under a direct terminate, contradicting the claim that no operation
changes the state of an `ERROR` session. -/
theorem terminate_error_session_cex :
    get_bot_session (terminate_bot botSvcE3 "s1" 5).2 "s1"
      = some { bsErr3 with status := .completed, updated_at := 5 }
    ∧ BotStatus.completed ≠ BotStatus.error := by
  refine ⟨by decide, by decide⟩

/-- C3 amended: the lifecycle still runs
`PENDING → JOINING → IN_MEETING → LEAVING → COMPLETED` with `ERROR`
reachable from any state, and `terminateByMeeting` does treat `COMPLETED`
and `ERROR` as terminal (it skips them, leaving them untouched); but
`terminate(id)` on ANY existing session unconditionally drives it to
`COMPLETED`, so `COMPLETED` is a fixed point of terminate while an `ERROR`
session's state IS changed (to `COMPLETED`) by a direct terminate. -/
theorem bot_terminal_states_spec :
    (∀ (svc : BotService) (sid : String) (now : Nat) (s : BotSession),
       alookup svc.sessions sid = some s →
       get_bot_session (terminate_bot svc sid now).2 sid
         = some { s with status := .completed, updated_at := now })
    ∧ (∀ (svc : BotService) (M : String) (now : Nat) (k : String) (s : BotSession),
       (svc.sessions.map Prod.fst).Nodup →
       (k, s) ∈ svc.sessions → is_terminal s.status = true →
       (k, s) ∈ (terminate_sessions_by_meeting_id svc M now).2.sessions) := by
  constructor
  · intro svc sid now s hs
    simp [terminate_bot, hs, get_bot_session, alookup_aupdate_self]
  · intro svc M now k s hnd hm hterm
    have hsess : (terminate_sessions_by_meeting_id svc M now).2.sessions
        = svc.sessions.map (terminateMark now (svc.sessions.filterMap (fun p =>
            if p.2.meeting_id = extract_meeting_id M then some p.1 else none))) :=
      terminate_fold_sessions now _ 0 svc hnd
    rw [hsess]
    refine List.mem_map.mpr ⟨(k, s), hm, ?_⟩
    simp [terminateMark, hterm]

def bsP3 : BotSession :=
  { id := "p", meeting_id := "777", meeting_password := none, status := .pending
    created_at := 0, updated_at := 0, container_id := none, error_message := none }

def bsC3 : BotSession :=
  { id := "c", meeting_id := "777", meeting_password := none, status := .completed
    created_at := 0, updated_at := 0, container_id := none, error_message := none }

def botSvcW3 : BotService := { sessions := [("p", bsP3), ("c", bsC3)] }

/-- Witness for C3 amended: a direct terminate completes a pending session,
and `terminateByMeeting` leaves an already-completed session untouched. -/
theorem bot_terminal_states_spec_w :
    get_bot_session (terminate_bot botSvcW3 "p" 3).2 "p"
      = some { bsP3 with status := .completed, updated_at := 3 }
    ∧ ("c", bsC3) ∈ (terminate_sessions_by_meeting_id botSvcW3 "777" 3).2.sessions :=
  ⟨bot_terminal_states_spec.1 botSvcW3 "p" 3 bsP3 rfl,
   bot_terminal_states_spec.2 botSvcW3 "777" 3 "c" bsC3 (by decide) (by decide)
     (by decide)⟩
